import Mathlib

/-!
Verification of `journey2html.py` (static HTML generation from Journey
journal backups) against its natural-language specification.

The Python program is shallowly embedded below:

* `convert_date`, `isoformat_space`, `civil_from_days` model
  `convert_date` (journey2html.py lines 71-79), which computes
  `datetime.datetime.fromtimestamp(float(int(datestr/1000)), None).isoformat(' ')`.
* `json_loads` models CPython's `json.load` on the file's text
  (the parse step of `load_jsonfile`, lines 82-96).
* `load_record` / `load_jsonfile` model the rest of `load_jsonfile`.
* `render_entry` / `renderAll` / `process_jsonfiles` model the per-entry
  rendering loop of `process_jsonfiles` (lines 113-142).
* `listjsonfiles` / `fnmatchFuel` model `Path(directory).glob("*.json")`
  (lines 60-68).
* `run` models `parsecli` plus `__main__` (lines 157-193).

Machine integers are modelled as `Int`/`Nat`.  Raised Python exceptions
are modelled as `Except PyErr`.  See the doc comments on the individual
definitions for the remaining modelling decisions.
-/

/-- The default input and output encoding, journey2html.py line 22. -/
def ENCODING : String := "UTF-8"

/-- Zero-pad a natural number to two digits, as `datetime.isoformat`
renders month, day, hour, minute and second fields. -/
def pad2 (n : Nat) : String :=
  if n < 10 then "0" ++ toString n else toString n

/-- Render a year as `datetime.isoformat` does: zero-padded to four
digits.  (Negative years cannot be produced by `datetime`; they are
rendered with a sign here only to keep the function total.) -/
def pad4 (y : Int) : String :=
  if y < 0 then "-" ++ toString (-y).toNat
  else
    let s := toString y.toNat
    if s.length < 4 then String.mk (List.replicate (4 - s.length) '0') ++ s else s

/-- Convert a count of days since 1970-01-01 to a civil `(year, month,
day)` triple, the proleptic-Gregorian conversion performed inside
`datetime.datetime.fromtimestamp`. -/
def civil_from_days (z0 : Int) : Int × Nat × Nat :=
  let z : Int := z0 + 719468
  let era : Int := Int.fdiv z 146097
  let doe : Nat := (z - era * 146097).toNat
  let yoe : Nat := (doe - doe / 1460 + doe / 36524 - doe / 146096) / 365
  let y : Int := (yoe : Int) + era * 400
  let doy : Nat := doe - (365 * yoe + yoe / 4 - yoe / 100)
  let mp : Nat := (5 * doy + 2) / 153
  let d : Nat := doy - (153 * mp + 2) / 5 + 1
  let m : Nat := if mp < 10 then mp + 3 else mp - 9
  (if m ≤ 2 then y + 1 else y, m, d)

/-- `datetime.datetime.fromtimestamp(sec, tz).isoformat(' ')` for an
integral number `sec` of epoch seconds: the `YYYY-MM-DD HH:MM:SS`
string.  Since `sec` is integral the `datetime` has microsecond 0, so
`isoformat` never appends a fractional part and this single format is
used for every timestamp.  `timezone=None` (the only way `convert_date`
is called) means the system-local zone; the deployment zone is modelled
as UTC. -/
def isoformat_space (sec : Int) : String :=
  let days : Int := Int.fdiv sec 86400
  let sod : Nat := (sec - days * 86400).toNat
  let ymd := civil_from_days days
  pad4 ymd.1 ++ "-" ++ pad2 ymd.2.1 ++ "-" ++ pad2 ymd.2.2 ++ " " ++
    pad2 (sod / 3600) ++ ":" ++ pad2 (sod % 3600 / 60) ++ ":" ++ pad2 (sod % 60)

/-- `convert_date` (journey2html.py lines 71-79):
`datetime.datetime.fromtimestamp(float(int(datestr/1000)), timezone).isoformat(' ')`.
`datestr/1000` is float true division and `int(...)` truncates toward
zero; inside `datetime`'s representable range (|seconds| < 2.5e11) the
float rounding error is below 1/2000, so the composite is exactly
truncating integer division by 1000, `Int.tdiv`. -/
def convert_date (datestr : Int) : String :=
  isoformat_space (Int.tdiv datestr 1000)

/-- A parsed JSON value, the result type of CPython's `json.load`.
Modelling restriction: JSON numbers are modelled as integers only
(entry files carry `date_journal` as an integer; no float fields are
used by the program). -/
inductive JsonValue where
  | null
  | bool (b : Bool)
  | num (n : Int)
  | str (s : String)
  | arr (elems : List JsonValue)
  | obj (fields : List (String × JsonValue))

/-- A raw parse error: CPython `json.JSONDecodeError`'s message text and
character offset, before line/column rendering. -/
structure PErr where
  msg : String
  pos : Nat
deriving DecidableEq

/-- `json.JSONDecodeError`'s user-visible data: message, 1-based line
and column, 0-based character offset.  Note it carries no file name:
`json.load` receives only the file handle's text. -/
structure JsonDecodeErr where
  msg : String
  line : Nat
  col : Nat
  pos : Nat
deriving DecidableEq

/-- Skip JSON whitespace, tracking the character offset. -/
def skipWs : List Char → Nat → List Char × Nat
  | [], p => ([], p)
  | c :: cs, p =>
    if c = ' ' ∨ c = '\t' ∨ c = '\n' ∨ c = '\r' then skipWs cs (p + 1)
    else (c :: cs, p)

/-- Consume a run of decimal digits, returning its value. -/
def parseDigits : List Char → Nat → Nat → Nat × List Char × Nat
  | [], acc, p => (acc, [], p)
  | c :: cs, acc, p =>
    if c.isDigit then parseDigits cs (acc * 10 + (c.toNat - 48)) (p + 1)
    else (acc, c :: cs, p)

/-- Parse a JSON integer (optional minus sign plus digits). -/
def parseNumber : List Char → Nat → Except PErr (Int × List Char × Nat)
  | '-' :: cs, p =>
    match cs with
    | c :: _ =>
      if c.isDigit then
        let r := parseDigits cs 0 (p + 1)
        .ok (-(r.1 : Int), r.2.1, r.2.2)
      else .error ⟨"Expecting value", p⟩
    | [] => .error ⟨"Expecting value", p⟩
  | l, p =>
    match l with
    | c :: _ =>
      if c.isDigit then
        let r := parseDigits l 0 p
        .ok ((r.1 : Int), r.2.1, r.2.2)
      else .error ⟨"Expecting value", p⟩
    | [] => .error ⟨"Expecting value", p⟩

/-- Parse the body of a JSON string, the opening quote already consumed.
`startPos` is the offset of the opening quote plus one.  Only the
single-character escapes are modelled (`\uXXXX` is not; the program's
entry files do not need it). -/
def parseStringBody (startPos : Nat) : List Char → Nat → Except PErr (String × List Char × Nat)
  | [], _ => .error ⟨"Unterminated string starting at", startPos - 1⟩
  | c :: cs, p =>
    if c = '"' then .ok ("", cs, p + 1)
    else if c = '\\' then
      match cs with
      | [] => .error ⟨"Unterminated string starting at", startPos - 1⟩
      | e :: cs2 =>
        let esc : Option Char :=
          if e = '"' then some '"'
          else if e = '\\' then some '\\'
          else if e = '/' then some '/'
          else if e = 'n' then some '\n'
          else if e = 't' then some '\t'
          else if e = 'r' then some '\r'
          else if e = 'b' then some (Char.ofNat 8)
          else if e = 'f' then some (Char.ofNat 12)
          else none
        match esc with
        | some ch =>
          match parseStringBody startPos cs2 (p + 2) with
          | .ok (s, rest, p2) => .ok (String.mk (ch :: s.toList), rest, p2)
          | .error er => .error er
        | none => .error ⟨"Invalid escape", p⟩
    else if c.toNat < 32 then .error ⟨"Invalid control character", p⟩
    else
      match parseStringBody startPos cs (p + 1) with
      | .ok (s, rest, p2) => .ok (String.mk (c :: s.toList), rest, p2)
      | .error er => .error er

mutual

/-- Parse one JSON value.  The fuel argument bounds nesting depth (the
caller passes input length + 1, which always suffices; exhaustion
corresponds to CPython's recursion limit). -/
def parseValue : Nat → List Char → Nat → Except PErr (JsonValue × List Char × Nat)
  | 0, _, p => .error ⟨"Maximum recursion depth exceeded", p⟩
  | fuel + 1, l, p =>
    let w := skipWs l p
    match w.1, w.2 with
    | [], p2 => .error ⟨"Expecting value", p2⟩
    | c :: cs, p2 =>
      if c = Char.ofNat 123 then
        let w2 := skipWs cs (p2 + 1)
        if w2.1.head? = some (Char.ofNat 125) then
          .ok (.obj [], w2.1.tail, w2.2 + 1)
        else parseMembers fuel w2.1 w2.2 []
      else if c = '[' then
        let w2 := skipWs cs (p2 + 1)
        if w2.1.head? = some ']' then
          .ok (.arr [], w2.1.tail, w2.2 + 1)
        else parseElems fuel w2.1 w2.2 []
      else if c = '"' then
        match parseStringBody (p2 + 1) cs (p2 + 1) with
        | .ok (s, rest, p3) => .ok (.str s, rest, p3)
        | .error er => .error er
      else if c = '-' ∨ c.isDigit then
        match parseNumber (c :: cs) p2 with
        | .ok (n, rest, p3) => .ok (.num n, rest, p3)
        | .error er => .error er
      else if c = 't' then
        match cs with
        | 'r' :: 'u' :: 'e' :: rest => .ok (.bool true, rest, p2 + 4)
        | _ => .error ⟨"Expecting value", p2⟩
      else if c = 'f' then
        match cs with
        | 'a' :: 'l' :: 's' :: 'e' :: rest => .ok (.bool false, rest, p2 + 5)
        | _ => .error ⟨"Expecting value", p2⟩
      else if c = 'n' then
        match cs with
        | 'u' :: 'l' :: 'l' :: rest => .ok (.null, rest, p2 + 4)
        | _ => .error ⟨"Expecting value", p2⟩
      else .error ⟨"Expecting value", p2⟩

/-- Parse the members of a JSON object after its opening brace (the
empty-object case is handled by `parseValue`). -/
def parseMembers : Nat → List Char → Nat → List (String × JsonValue) →
    Except PErr (JsonValue × List Char × Nat)
  | 0, _, p, _ => .error ⟨"Maximum recursion depth exceeded", p⟩
  | fuel + 1, l, p, acc =>
    let w := skipWs l p
    match w.1, w.2 with
    | '"' :: cs, p2 =>
      match parseStringBody (p2 + 1) cs (p2 + 1) with
      | .error er => .error er
      | .ok (key, rest, p3) =>
        let w2 := skipWs rest p3
        match w2.1, w2.2 with
        | ':' :: r3, p4 =>
          match parseValue fuel r3 (p4 + 1) with
          | .error er => .error er
          | .ok (v, r4, p5) =>
            let w3 := skipWs r4 p5
            match w3.1, w3.2 with
            | ',' :: r6, p6 => parseMembers fuel r6 (p6 + 1) (acc ++ [(key, v)])
            | d :: r6, p6 =>
              if d = Char.ofNat 125 then .ok (.obj (acc ++ [(key, v)]), r6, p6 + 1)
              else .error ⟨"Expecting comma delimiter", p6⟩
            | [], p6 => .error ⟨"Expecting comma delimiter", p6⟩
        | _, p4 => .error ⟨"Expecting colon delimiter", p4⟩
    | _, p2 => .error ⟨"Expecting property name enclosed in double quotes", p2⟩

/-- Parse the elements of a JSON array after its opening bracket (the
empty-array case is handled by `parseValue`). -/
def parseElems : Nat → List Char → Nat → List JsonValue →
    Except PErr (JsonValue × List Char × Nat)
  | 0, _, p, _ => .error ⟨"Maximum recursion depth exceeded", p⟩
  | fuel + 1, l, p, acc =>
    match parseValue fuel l p with
    | .error er => .error er
    | .ok (v, rest, p2) =>
      let w := skipWs rest p2
      match w.1, w.2 with
      | ',' :: r3, p3 => parseElems fuel r3 (p3 + 1) (acc ++ [v])
      | ']' :: r3, p3 => .ok (.arr (acc ++ [v]), r3, p3 + 1)
      | _, p3 => .error ⟨"Expecting comma delimiter", p3⟩

end

/-- Compute the 1-based line and column of a character offset, as
`json.JSONDecodeError.__init__` does (`doc.count` and `doc.rindex`). -/
def linecol (doc : List Char) (pos : Nat) : Nat × Nat :=
  let pre := doc.take pos
  let ln := List.count '\n' pre + 1
  if ln = 1 then (1, pos + 1)
  else (ln, pos - (pre.length - 1 - List.indexOf '\n' pre.reverse))

/-- Attach line/column information to a raw parse error, as
`json.JSONDecodeError` does.  The error is a function of the document
text and offset alone, never of any file name. -/
def mkJsonErr (doc : String) (e : PErr) : JsonDecodeErr :=
  let lc := linecol doc.toList e.pos
  ⟨e.msg, lc.1, lc.2, e.pos⟩

/-- `str(json.JSONDecodeError)`: the message CPython renders, e.g.
`Expecting value: line 1 column 1 (char 0)`. -/
def jsonErrMessage (e : JsonDecodeErr) : String :=
  e.msg ++ ": line " ++ toString e.line ++ " column " ++ toString e.col ++
    " (char " ++ toString e.pos ++ ")"

/-- CPython's `json.load` on the text of an open file: parse one value,
then require only whitespace to follow (else `Extra data`). -/
def json_loads (s : String) : Except JsonDecodeErr JsonValue :=
  let cs := s.toList
  match parseValue (cs.length + 1) cs 0 with
  | .error e => .error (mkJsonErr s e)
  | .ok (v, rest, p) =>
    let w := skipWs rest p
    match w.1 with
    | [] => .ok v
    | _ => .error (mkJsonErr s ⟨"Extra data", w.2⟩)

/-- A raised Python exception, as the program can produce one:
a `json.JSONDecodeError` from `json.load`, a `TypeError` (e.g. from
`int(None/1000)`, from iterating `None`, or from a non-string `src`
attribute value in `lxml`), or an `AttributeError` (e.g. `None.split`).
Message texts are abbreviated models of CPython's. -/
inductive PyErr where
  | jsonDecode (e : JsonDecodeErr)
  | typeError (msg : String)
  | attributeError (msg : String)
deriving DecidableEq

/-- The message of an uncaught exception as the interpreter prints it on
the traceback's last line (class name omitted in the model). -/
def pyMessage : PyErr → String
  | .jsonDecode e => jsonErrMessage e
  | .typeError m => m
  | .attributeError m => m

/-- Python `dict.get` on a dict built by `json.load` from an object
literal: later duplicate keys overwrite earlier ones, a missing key
gives `None` (modelled as `none`). -/
def jget (fields : List (String × JsonValue)) (key : String) : Option JsonValue :=
  fields.foldl (fun acc kv => if kv.1 = key then some kv.2 else acc) none

/-- The `content` dict built by `load_jsonfile` (lines 89-96): the raw
`text` and `photos` values (possibly `None`) and the already-converted
date string. -/
structure Content where
  text : Option JsonValue
  photos : Option JsonValue
  date_journal : String

/-- The field extraction and date conversion of `load_jsonfile` on the
parsed value `src`: `content[key] = src.get(key)` for the three keys,
then `content["date_journal"] = convert_date(content["date_journal"])`.
A non-object `src` has no `.get` (`AttributeError`); a missing or
non-numeric `date_journal` makes `int(datestr/1000)` raise `TypeError`
(a JSON `true`/`false` is a Python `bool`, which divides like 1/0). -/
def load_record (v : JsonValue) : Except PyErr Content :=
  match v with
  | JsonValue.obj fields =>
    match jget fields "date_journal" with
    | some (JsonValue.num n) =>
      .ok ⟨jget fields "text", jget fields "photos", convert_date n⟩
    | some (JsonValue.bool b) =>
      .ok ⟨jget fields "text", jget fields "photos", convert_date (if b then 1 else 0)⟩
    | _ => .error (PyErr.typeError "unsupported operand type for division")
  | _ => .error (PyErr.attributeError "object has no attribute get")

/-- `load_jsonfile` (lines 82-96) on the text of one JSON file:
`json.load` then field extraction and date conversion. -/
def load_jsonfile (content : String) : Except PyErr Content :=
  match json_loads content with
  | .error e => .error (PyErr.jsonDecode e)
  | .ok v => load_record v

/-- An element of the `lxml` tree built via `lxml.html.builder`:
tag, attributes, text content, children. -/
inductive Html where
  | element (tag : String) (attrs : List (String × String)) (text : String)
    (children : List Html)

/-- Python `text.split(" ")`: split on every single space, keeping empty
pieces (`String.splitOn` has the same semantics but is implemented here
on `List Char` so that it evaluates in the kernel). -/
def pySplitSpace : List Char → List Char → List String
  | [], cur => [String.mk cur.reverse]
  | c :: cs, cur =>
    if c = ' ' then String.mk cur.reverse :: pySplitSpace cs []
    else pySplitSpace cs (c :: cur)

/-- `" ".join(content.get('text').split(" ")[:5])` (line 125): the
derived title, the first five space-separated pieces of the text. -/
def pyTitle (t : String) : String :=
  String.intercalate " " ((pySplitSpace t.toList []).take 5)

/-- Iterate a JSON array of photo references building `src` attribute
values: the first non-string element raises `lxml`'s `TypeError`. -/
def strList : List JsonValue → Except PyErr (List String)
  | [] => .ok []
  | JsonValue.str s :: rest =>
    match strList rest with
    | .ok ss => .ok (s :: ss)
    | .error e => .error e
  | _ :: _ => .error (PyErr.typeError "Argument must be bytes or unicode")

/-- `for image in content.get('photos')` (line 133) producing the `src`
strings: `None` (missing key or JSON `null`) is not iterable
(`TypeError`); a JSON array yields its elements; Python iterates a
string by characters and a dict by its keys; numbers and booleans are
not iterable. -/
def photoSrcs : Option JsonValue → Except PyErr (List String)
  | none => .error (PyErr.typeError "NoneType object is not iterable")
  | some (JsonValue.arr xs) => strList xs
  | some (JsonValue.str s) => .ok (s.toList.map fun c => String.mk [c])
  | some (JsonValue.obj fs) => .ok (fs.map fun kv => kv.1)
  | some (JsonValue.num _) => .error (PyErr.typeError "int object is not iterable")
  | some (JsonValue.bool _) => .error (PyErr.typeError "bool object is not iterable")
  | some JsonValue.null => .error (PyErr.typeError "NoneType object is not iterable")

/-- The loop body of `process_jsonfiles` (lines 124-141) for one loaded
entry: `DIV(H1(title))`, then `H2(date)`, then a `DIV` of `IMG`
elements (fixed `width="600"`), then `P(text)`.  The title is computed
from `text` first, so a missing or non-string `text` raises
`AttributeError` (`.split`) before the photos are touched.  The raw
text goes into the paragraph unchanged: no Markdown processing exists
anywhere in the program. -/
def render_entry (c : Content) : Except PyErr Html :=
  match c.text with
  | some (JsonValue.str t) =>
    match photoSrcs c.photos with
    | .error e => .error e
    | .ok srcs =>
      .ok (Html.element "div" [] ""
        [Html.element "h1" [] (pyTitle t) [],
         Html.element "h2" [] c.date_journal [],
         Html.element "div" [] ""
           (srcs.map fun s => Html.element "img" [("src", s), ("width", "600")] "" []),
         Html.element "p" [] t []])
  | _ => .error (PyErr.attributeError "object has no attribute split")

/-- Load-then-render for an already-parsed JSON value. -/
def load_render_record (v : JsonValue) : Except PyErr Html :=
  match load_record v with
  | .error e => .error e
  | .ok c => render_entry c

/-- Load-then-render for one file's text: `load_jsonfile` followed by
the loop body of `process_jsonfiles`. -/
def loadRender (content : String) : Except PyErr Html :=
  match load_jsonfile content with
  | .error e => .error e
  | .ok c => render_entry c

/-- One file as the pipeline sees it: its path relative to the input
directory (subdirectory entries contain `/`) and its text. -/
structure JFile where
  name : String
  content : String
deriving DecidableEq

/-- `fnmatch.translate` semantics for a pattern whose only special
character is `*` (the compiled regex `pathlib` matches names against;
`*` matches any run of characters, a dot-file is matched like any
other name).  Other `fnmatch` specials (`?`, `[`) do not occur in the
program's one pattern `*.json` and are treated as literals. -/
def fnmatchFuel : Nat → List Char → List Char → Bool
  | 0, _, _ => false
  | fuel + 1, pat, name =>
    match pat with
    | [] => name.isEmpty
    | p :: ps =>
      if p = '*' then
        (fnmatchFuel fuel ps name ||
          match name with
          | [] => false
          | _ :: ns => fnmatchFuel fuel (p :: ps) ns)
      else
        match name with
        | [] => false
        | c :: ns => c = p && fnmatchFuel fuel ps ns

/-- `pathlib` name matching: compile the pattern and full-match the
entry name.  Every recursive step of `fnmatchFuel` shortens pattern or
name, so `pat.length + name.length + 1` steps always suffice. -/
def globMatch (pat name : String) : Bool :=
  fnmatchFuel (pat.length + name.length + 1) pat.toList name.toList

/-- `listjsonfiles` (lines 60-68): `Path(directory).glob("*.json")`.
A single-component pattern inspects only the directory's direct
children (modelled as names without `/`), in directory enumeration
order. -/
def listjsonfiles (dir : List JFile) : List JFile :=
  dir.filter fun f => !f.name.toList.contains '/' && globMatch "*.json" f.name

/-- The `for jfile in listjsonfiles(directory)` loop of
`process_jsonfiles`: load and render each file in order, appending the
blocks to the body; the first uncaught exception aborts the whole run. -/
def renderAll : List JFile → Except PyErr (List Html)
  | [] => .ok []
  | f :: fs =>
    match loadRender f.content with
    | .error e => .error e
    | .ok b =>
      match renderAll fs with
      | .error e => .error e
      | .ok bs => .ok (b :: bs)

/-- `process_jsonfiles` (lines 113-142): glob the directory, then the
rendering loop.  Returns the list of entry blocks appended to the body. -/
def process_jsonfiles (dir : List JFile) : Except PyErr (List Html) :=
  renderAll (listjsonfiles dir)

/-- `gen_html` (lines 99-110) around the finished body: `HTML(HEAD(LINK,
META), BODY(...))` with the stylesheet link and charset declaration. -/
def gen_html_document (blocks : List Html) : Html :=
  Html.element "html" [] ""
    [Html.element "head" [] ""
      [Html.element "link" [("rel", "stylesheet"), ("href", "journey.css"), ("type", "text/css")] "" [],
       Html.element "meta" [("charset", ENCODING)] "" []],
     Html.element "body" [] "" blocks]

/-- The state one invocation runs against: the two CLI paths, whether
each exists, and the input directory's entries (relative paths and
texts).  Listing a path that is a plain file (e.g. a ZIP archive)
yields no entries, which is modelled by `entries = []`. -/
structure World where
  dirPath : String
  htmlPath : String
  dirExists : Bool
  htmlExists : Bool
  entries : List JFile

/-- The observable outcome of one invocation: the process exit status,
the written HTML file (path and document) if any, and the error text
printed to stderr if any. -/
structure RunResult where
  exitCode : Nat
  output : Option (String × Html)
  errMsg : Option String

/-- `parsecli` plus `__main__` (lines 157-193): `parser.error` (exit
status 2) if the directory does not exist, then `parser.error` if the
HTML file already exists; otherwise process all JSON files and write
the document.  An exception escaping `process_jsonfiles` terminates the
interpreter with exit status 1 before `output_html` runs, so no file is
written. -/
def run (w : World) : RunResult :=
  if w.dirExists = true then
    if w.htmlExists = true then
      ⟨2, none, some ("File " ++ w.htmlPath ++ " already exists. Choose a different name.")⟩
    else
      match process_jsonfiles w.entries with
      | .error e => ⟨1, none, some (pyMessage e)⟩
      | .ok blocks => ⟨0, some (w.htmlPath, gen_html_document blocks), none⟩
  else ⟨2, none, some ("Directory " ++ w.dirPath ++ " does not exist.")⟩

/-- The input handed to the resolver stage: either a ZIP archive (its
member files, and whether the extraction destination already exists) or
a directory of files. -/
inductive SourceInput where
  | zip (members : List JFile) (destExists : Bool)
  | dir (files : List JFile)

/-- Modelled from the spec (refinement reference, spec section 4.1):
the Archive/Directory Resolver contract — ZIP mode extracts all archive
members into a fresh destination directory (failing fast if it already
exists); directory mode passes the directory through. -/
def resolver_spec : SourceInput → Except String (List JFile)
  | .zip members destExists =>
    if destExists then .error "destination directory already exists" else .ok members
  | .dir files => .ok files

/-- What the code does with the input path (from `parsecli` and
`__main__`, lines 157-193): it is always treated as a directory name.
No ZIP handling exists in the program (`zipfile` is never imported).
`Path(p).glob(...)` on a path that is a plain file — e.g. a ZIP
archive — yields nothing (`_Selector.select_from` returns an empty
iterator when the path is not a directory), so no member is ever seen. -/
def resolver_code : SourceInput → List JFile
  | .zip _ _ => []
  | .dir files => files

/-- Observer: did the computation succeed? -/
def exceptIsOk {ε α : Type} : Except ε α → Bool
  | .ok _ => true
  | .error _ => false

/-- Observer: the raised exception, if any. -/
def errOf {α : Type} : Except PyErr α → Option PyErr
  | .error e => some e
  | .ok _ => none

/-- Observer: how many entry blocks a successful pipeline produced. -/
def blocksCount {ε : Type} : Except ε (List Html) → Option Nat
  | .ok l => some l.length
  | .error _ => none

/-- Is `sub` a contiguous substring of `l`? -/
def listContainsSub (sub : List Char) : List Char → Bool
  | [] => sub.isEmpty
  | c :: t => sub.isPrefixOf (c :: t) || listContainsSub sub t

/-- Does any attribute value of the list contain `s` as a substring? -/
def attrsMention (s : String) (attrs : List (String × String)) : Bool :=
  attrs.any fun kv => listContainsSub s.toList kv.2.toList

mutual

/-- Does the string `s` occur anywhere in the rendered tree (element
text or attribute values)? -/
def htmlMentions (s : String) : Html → Bool
  | Html.element _ attrs t cs =>
    listContainsSub s.toList t.toList || attrsMention s attrs || htmlListMentions s cs

/-- `htmlMentions` over a list of children. -/
def htmlListMentions (s : String) : List Html → Bool
  | [] => false
  | h :: rest => htmlMentions s h || htmlListMentions s rest

end

/-- Observer: does the render result mention `s` (errors count as a
mention so that absence is only claimed about successful renders)? -/
def resultMentions (s : String) : Except PyErr Html → Bool
  | .ok b => htmlMentions s b
  | .error _ => true

theorem tdiv_1000_eq_fdiv_of_nonneg (ms : Int) (h : 0 ≤ ms) :
    Int.tdiv ms 1000 = Int.fdiv ms 1000 := by
  obtain ⟨n, rfl⟩ := Int.eq_ofNat_of_zero_le h
  cases n with
  | zero => rfl
  | succ k => rfl

/-- C2 (amended): for every non-negative millisecond timestamp in
`datetime`'s representable range, the displayed date string equals the
ISO-8601-with-space formatting of floor(date_journal / 1000) epoch
seconds, one uniform format.  (For negative timestamps the code
truncates toward zero instead of flooring, see the counterexample.) -/
theorem C2_display_floor_nonneg (ms : Int) (h1 : 0 ≤ ms) (h2 : ms < 253402300800000) :
    convert_date ms = isoformat_space (Int.fdiv ms 1000) := by
  unfold convert_date
  rw [tdiv_1000_eq_fdiv_of_nonneg ms h1]

theorem C2_display_floor_nonneg_witness :
    convert_date 1509022007088 = isoformat_space (Int.fdiv 1509022007088 1000) :=
  C2_display_floor_nonneg 1509022007088 (by decide) (by decide)

/-- C2 counterexample: at `date_journal = -1500` the code displays the
formatting of -1 (truncation toward zero), not of floor(-1500/1000) =
-2 as the claim states: `1969-12-31 23:59:59` vs `1969-12-31 23:59:58`. -/
theorem C2_floor_counterexample :
    convert_date (-1500) ≠ isoformat_space (Int.fdiv (-1500) 1000) := by decide

/-- C9: timestamp conversion is deterministic — `convert_date` is a pure
function of the millisecond integer (for the one fixed deployment
timezone), so two invocations on the same integer always yield the same
display string. -/
theorem C9_convert_date_deterministic (ms1 ms2 : Int) (h : ms1 = ms2) :
    convert_date ms1 = convert_date ms2 := by rw [h]

theorem C9_convert_date_deterministic_witness :
    convert_date 1509022007088 = convert_date 1509022007088 :=
  C9_convert_date_deterministic 1509022007088 1509022007088 rfl

/-- C5: if the destination HTML file already exists the run aborts in
`parsecli` with `parser.error` — exit status 2, nothing written, the
message naming the colliding file — before any entry is processed. -/
theorem C5_refuses_overwrite (w : World) (hdir : w.dirExists = true) (hhtml : w.htmlExists = true) :
    (run w).exitCode = 2 ∧ (run w).exitCode ≠ 0 ∧ (run w).output = none ∧
    (run w).errMsg = some ("File " ++ w.htmlPath ++ " already exists. Choose a different name.") := by
  simp [run, hdir, hhtml]

theorem C5_refuses_overwrite_witness :
    (run ⟨"backup", "journey.html", true, true, []⟩).exitCode = 2 ∧
    (run ⟨"backup", "journey.html", true, true, []⟩).exitCode ≠ 0 ∧
    (run ⟨"backup", "journey.html", true, true, []⟩).output = none ∧
    (run ⟨"backup", "journey.html", true, true, []⟩).errMsg =
      some ("File " ++ "journey.html" ++ " already exists. Choose a different name.") :=
  C5_refuses_overwrite ⟨"backup", "journey.html", true, true, []⟩ rfl rfl

/-- C6 counterexample: a ZIP archive containing the valid entry file
`a.json` — the spec's resolver would extract it (`resolver_spec`), but
the program performs no extraction: the archive path is treated as a
directory, globbing it yields nothing, and the run produces zero entry
blocks even though the member itself renders fine when reachable. -/
theorem C6_zip_members_not_processed :
    resolver_spec (SourceInput.zip [⟨"a.json", "\x7b\"text\": \"x\", \"photos\": [], \"date_journal\": 0\x7d"⟩] false) =
      .ok [⟨"a.json", "\x7b\"text\": \"x\", \"photos\": [], \"date_journal\": 0\x7d"⟩] ∧
    resolver_code (SourceInput.zip [⟨"a.json", "\x7b\"text\": \"x\", \"photos\": [], \"date_journal\": 0\x7d"⟩] false) = [] ∧
    blocksCount (process_jsonfiles (resolver_code (SourceInput.zip [⟨"a.json", "\x7b\"text\": \"x\", \"photos\": [], \"date_journal\": 0\x7d"⟩] false))) = some 0 ∧
    exceptIsOk (loadRender "\x7b\"text\": \"x\", \"photos\": [], \"date_journal\": 0\x7d") = true :=
  ⟨rfl, rfl, rfl, by decide⟩

/-- C6 (amended): the program has no ZIP mode — the input path is always
treated as a directory, so directory input is processed as-is
(extraction trivially skipped) while a ZIP archive's members never
reach the pipeline: processing the resolved input of a ZIP yields an
empty body. -/
theorem C6_no_zip_mode (members : List JFile) (destExists : Bool) (files : List JFile) :
    process_jsonfiles (resolver_code (SourceInput.zip members destExists)) = Except.ok [] ∧
    resolver_code (SourceInput.dir files) = files :=
  ⟨rfl, rfl⟩

theorem loadRender_ok_parse (c : String) (b : Html) (h : loadRender c = Except.ok b) :
    exceptIsOk (json_loads c) = true := by
  unfold loadRender load_jsonfile at h
  cases hj : json_loads c with
  | error e => rw [hj] at h; simp at h
  | ok v => simp [exceptIsOk]

theorem renderAll_parses (fs : List JFile) (bs : List Html) (h : renderAll fs = Except.ok bs) :
    ∀ f ∈ fs, exceptIsOk (json_loads f.content) = true := by
  induction fs generalizing bs with
  | nil => intro f hf; cases hf
  | cons g fs ih =>
    intro f hf
    cases hlr : loadRender g.content with
    | error e => simp [renderAll, hlr] at h
    | ok b =>
      cases hrest : renderAll fs with
      | error e => simp [renderAll, hlr, hrest] at h
      | ok bs2 =>
        rcases List.mem_cons.mp hf with rfl | hf2
        · exact loadRender_ok_parse f.content b hlr
        · exact ih bs2 hrest f hf2

/-- C3 (amended): a malformed JSON file among the globbed entries makes
the whole run abort before any output is written — no HTML file is
created and the process exits with status 1 (the uncaught-exception
status, distinct from the CLI-error status 2).  The part of the
original claim that the error message names the offending file is
false: see the counterexample. -/
theorem C3_abort_on_malformed (w : World) (hdir : w.dirExists = true) (hhtml : w.htmlExists = false)
    (hbad : ∃ f, f ∈ listjsonfiles w.entries ∧ exceptIsOk (json_loads f.content) = false) :
    (run w).exitCode = 1 ∧ (run w).output = none := by
  obtain ⟨f, hmem, hfail⟩ := hbad
  cases hproc : process_jsonfiles w.entries with
  | ok bs =>
    have hok := renderAll_parses (listjsonfiles w.entries) bs
      (by unfold process_jsonfiles at hproc; exact hproc) f hmem
    rw [hok] at hfail; simp at hfail
  | error e => simp [run, hdir, hhtml, hproc]

theorem C3_abort_on_malformed_witness :
    (run ⟨"backup", "journey.html", true, false, [⟨"entry1.json", "garbage"⟩]⟩).exitCode = 1 ∧
    (run ⟨"backup", "journey.html", true, false, [⟨"entry1.json", "garbage"⟩]⟩).output = none :=
  C3_abort_on_malformed ⟨"backup", "journey.html", true, false, [⟨"entry1.json", "garbage"⟩]⟩
    rfl rfl ⟨⟨"entry1.json", "garbage"⟩, by decide, by decide⟩

/-- C3 counterexample: with the single malformed file `entry1.json` the
run does abort with status 1 and no output, but the error message is
`json.JSONDecodeError`'s text, which reports only the position inside
the document — the offending file's name (`entry1.json`, or even the
stem `entry1`) appears nowhere in it.  (`json.load` never sees the file
name; the preceding `log.info` line that does name the file is emitted
at INFO level, which the default WARNING verbosity suppresses.) -/
theorem C3_message_lacks_filename :
    (run ⟨"backup", "journey.html", true, false, [⟨"entry1.json", "garbage"⟩]⟩).exitCode = 1 ∧
    (run ⟨"backup", "journey.html", true, false, [⟨"entry1.json", "garbage"⟩]⟩).output = none ∧
    (run ⟨"backup", "journey.html", true, false, [⟨"entry1.json", "garbage"⟩]⟩).errMsg =
      some "Expecting value: line 1 column 1 (char 0)" ∧
    listContainsSub "entry1.json".toList "Expecting value: line 1 column 1 (char 0)".toList = false ∧
    listContainsSub "entry1".toList "Expecting value: line 1 column 1 (char 0)".toList = false :=
  ⟨rfl, rfl, rfl, by decide, by decide⟩

/-- C4 counterexample: an entry whose record lacks the `photos` field
does not render — `content["photos"]` is `None` (not an empty
sequence), and iterating it in the gallery loop raises `TypeError`. -/
theorem C4_missing_photos_fails :
    errOf (loadRender "\x7b\"text\": \"hi\", \"date_journal\": 0\x7d") =
      some (PyErr.typeError "NoneType object is not iterable") := by decide

theorem strList_map_str (srcs : List String) :
    strList (srcs.map JsonValue.str) = Except.ok srcs := by
  induction srcs with
  | nil => rfl
  | cons s rest ih => simp [strList, ih]

/-- C4 (amended): for an entry with string `text` and integer
`date_journal`, a missing `address` field is irrelevant (rendering
succeeds whenever `photos` is a list of strings — `address` is never
read at all), but a missing `photos` field aborts rendering with a
`TypeError`: at render time `photos` is `None`, not an empty sequence. -/
theorem C4_optional_fields (fields : List (String × JsonValue)) (t : String) (n : Int)
    (ht : jget fields "text" = some (JsonValue.str t))
    (hd : jget fields "date_journal" = some (JsonValue.num n)) :
    (∀ srcs : List String, jget fields "photos" = some (JsonValue.arr (srcs.map JsonValue.str)) →
      exceptIsOk (load_render_record (JsonValue.obj fields)) = true) ∧
    (jget fields "photos" = none →
      load_render_record (JsonValue.obj fields) =
        Except.error (PyErr.typeError "NoneType object is not iterable")) := by
  constructor
  · intro srcs hp
    simp [load_render_record, load_record, hd, render_entry, ht, hp, photoSrcs,
      strList_map_str, exceptIsOk]
  · intro hp
    simp [load_render_record, load_record, hd, render_entry, ht, hp, photoSrcs]

theorem C4_optional_fields_witness :
    exceptIsOk (load_render_record (JsonValue.obj
      [("text", JsonValue.str "hi"), ("photos", JsonValue.arr []), ("date_journal", JsonValue.num 0)])) = true ∧
    load_render_record (JsonValue.obj [("text", JsonValue.str "hi"), ("date_journal", JsonValue.num 0)]) =
      Except.error (PyErr.typeError "NoneType object is not iterable") :=
  ⟨(C4_optional_fields
      [("text", JsonValue.str "hi"), ("photos", JsonValue.arr []), ("date_journal", JsonValue.num 0)]
      "hi" 0 rfl rfl).1 [] rfl,
   (C4_optional_fields [("text", JsonValue.str "hi"), ("date_journal", JsonValue.num 0)]
      "hi" 0 rfl rfl).2 rfl⟩

/-- C7 counterexample: an entry carrying `"address": "Home"` renders
successfully, but the string `Home` appears nowhere in the rendered
block — no secondary heading or line holds the address, contradicting
the claim's positive half. -/
theorem C7_address_not_rendered :
    exceptIsOk (loadRender "\x7b\"text\": \"hi\", \"photos\": [], \"address\": \"Home\", \"date_journal\": 0\x7d") = true ∧
    resultMentions "Home" (loadRender "\x7b\"text\": \"hi\", \"photos\": [], \"address\": \"Home\", \"date_journal\": 0\x7d") = false :=
  ⟨by decide, by decide⟩

/-- C7 (amended): `load_jsonfile` extracts only `text`, `photos` and
`date_journal`, so the `address` field is silently dropped: adding (or
removing) an `address` field never changes the load-and-render result —
in particular no address line is ever emitted and loading never fails
on account of `address`. -/
theorem C7_address_dropped (fields : List (String × JsonValue)) (v : JsonValue) :
    load_render_record (JsonValue.obj (fields ++ [("address", v)])) =
      load_render_record (JsonValue.obj fields) := by
  have hkey : ∀ k : String, ¬("address" = k) →
      jget (fields ++ [("address", v)]) k = jget fields k := by
    intro k hk
    simp [jget, List.foldl_append, hk]
  simp only [load_render_record, load_record, hkey "text" (by decide),
    hkey "photos" (by decide), hkey "date_journal" (by decide)]

/-- C8: the rendered block's body paragraph holds the raw entry text
inserted as plain content — the program contains no Markdown renderer,
i.e. it is the claim's `renderMarkdown = false` mode, in which the text
(e.g. a literal `Hello **world**`) is inserted unconverted.  The
theorem characterises the whole block: derived title heading, date
heading, gallery of `img` elements, then the paragraph `P(text)`. -/
theorem C8_raw_text_paragraph (fields : List (String × JsonValue)) (t : String) (n : Int)
    (srcs : List String)
    (ht : jget fields "text" = some (JsonValue.str t))
    (hp : jget fields "photos" = some (JsonValue.arr (srcs.map JsonValue.str)))
    (hd : jget fields "date_journal" = some (JsonValue.num n)) :
    load_render_record (JsonValue.obj fields) =
      Except.ok (Html.element "div" [] ""
        [Html.element "h1" [] (pyTitle t) [],
         Html.element "h2" [] (convert_date n) [],
         Html.element "div" [] ""
           (srcs.map fun s => Html.element "img" [("src", s), ("width", "600")] "" []),
         Html.element "p" [] t []]) := by
  simp [load_render_record, load_record, hd, render_entry, ht, hp, photoSrcs, strList_map_str]

theorem C8_raw_text_paragraph_witness :
    load_render_record (JsonValue.obj
      [("text", JsonValue.str "Hello **world**"), ("photos", JsonValue.arr []),
       ("date_journal", JsonValue.num 1509022007088)]) =
      Except.ok (Html.element "div" [] ""
        [Html.element "h1" [] (pyTitle "Hello **world**") [],
         Html.element "h2" [] (convert_date 1509022007088) [],
         Html.element "div" [] ""
           (List.map (fun s => Html.element "img" [("src", s), ("width", "600")] "" []) []),
         Html.element "p" [] "Hello **world**" []]) :=
  C8_raw_text_paragraph
    [("text", JsonValue.str "Hello **world**"), ("photos", JsonValue.arr []),
     ("date_journal", JsonValue.num 1509022007088)]
    "Hello **world**" 1509022007088 [] rfl rfl rfl

theorem renderAll_ok (fs : List JFile)
    (h : ∀ f ∈ fs, exceptIsOk (loadRender f.content) = true) :
    ∃ bs, renderAll fs = Except.ok bs ∧ bs.length = fs.length ∧
      ∀ i (hb : i < bs.length) (hf : i < fs.length),
        loadRender ((fs.get ⟨i, hf⟩).content) = Except.ok (bs.get ⟨i, hb⟩) := by
  induction fs with
  | nil => exact ⟨[], rfl, rfl, fun i hb hf => absurd hf (Nat.not_lt_zero i)⟩
  | cons g fs ih =>
    have hg := h g (List.mem_cons_self g fs)
    obtain ⟨b, hb0⟩ : ∃ b, loadRender g.content = Except.ok b := by
      cases hlr : loadRender g.content with
      | ok b => exact ⟨b, rfl⟩
      | error e => rw [hlr] at hg; simp [exceptIsOk] at hg
    obtain ⟨bs, hbs, hlen, hidx⟩ := ih fun f hf => h f (List.mem_cons_of_mem g hf)
    refine ⟨b :: bs, ?_, ?_, ?_⟩
    · simp [renderAll, hb0, hbs]
    · simp [hlen]
    · intro i hbb hff
      cases i with
      | zero => exact hb0
      | succ j => exact hidx j (Nat.lt_of_succ_lt_succ hbb) (Nat.lt_of_succ_lt_succ hff)

/-- C1: when every globbed entry file loads and renders successfully,
the body holds exactly one entry block per input `.json` file, appended
in directory enumeration order: block `i` is the render of file `i`,
and no entry is omitted (the lengths agree). -/
theorem C1_one_block_per_entry (dir : List JFile)
    (h : ∀ f ∈ listjsonfiles dir, exceptIsOk (loadRender f.content) = true) :
    ∃ blocks, process_jsonfiles dir = Except.ok blocks ∧
      blocks.length = (listjsonfiles dir).length ∧
      ∀ i (hb : i < blocks.length) (hf : i < (listjsonfiles dir).length),
        loadRender (((listjsonfiles dir).get ⟨i, hf⟩).content) = Except.ok (blocks.get ⟨i, hb⟩) :=
  renderAll_ok (listjsonfiles dir) h

theorem C1_one_block_per_entry_witness :
    ∃ blocks, process_jsonfiles
        [⟨"a.json", "\x7b\"text\": \"a\", \"photos\": [], \"date_journal\": 0\x7d"⟩,
         ⟨"b.json", "\x7b\"text\": \"b\", \"photos\": [], \"date_journal\": 1000\x7d"⟩] =
        Except.ok blocks ∧
      blocks.length = (listjsonfiles
        [⟨"a.json", "\x7b\"text\": \"a\", \"photos\": [], \"date_journal\": 0\x7d"⟩,
         ⟨"b.json", "\x7b\"text\": \"b\", \"photos\": [], \"date_journal\": 1000\x7d"⟩]).length ∧
      ∀ i (hb : i < blocks.length) (hf : i < (listjsonfiles
        [⟨"a.json", "\x7b\"text\": \"a\", \"photos\": [], \"date_journal\": 0\x7d"⟩,
         ⟨"b.json", "\x7b\"text\": \"b\", \"photos\": [], \"date_journal\": 1000\x7d"⟩]).length),
        loadRender (((listjsonfiles
          [⟨"a.json", "\x7b\"text\": \"a\", \"photos\": [], \"date_journal\": 0\x7d"⟩,
           ⟨"b.json", "\x7b\"text\": \"b\", \"photos\": [], \"date_journal\": 1000\x7d"⟩]).get ⟨i, hf⟩).content) =
          Except.ok (blocks.get ⟨i, hb⟩) :=
  C1_one_block_per_entry
    [⟨"a.json", "\x7b\"text\": \"a\", \"photos\": [], \"date_journal\": 0\x7d"⟩,
     ⟨"b.json", "\x7b\"text\": \"b\", \"photos\": [], \"date_journal\": 1000\x7d"⟩]
    (by decide)

theorem fnmatchFuel_nostar (ps : List Char) (hs : '*' ∉ ps) :
    ∀ (l : List Char) (fuel : Nat), ps.length < fuel →
      (fnmatchFuel fuel ps l = true ↔ l = ps) := by
  induction ps with
  | nil =>
    intro l fuel hf
    cases fuel with
    | zero => exact absurd hf (Nat.not_lt_zero _)
    | succ f => simp [fnmatchFuel, List.isEmpty_iff]
  | cons p ps ih =>
    intro l fuel hf
    have hp : ¬p = '*' := fun h => hs (h ▸ List.mem_cons_self p ps)
    have hps : '*' ∉ ps := fun h => hs (List.mem_cons_of_mem p h)
    cases fuel with
    | zero => exact absurd hf (Nat.not_lt_zero _)
    | succ f =>
      have hlt : ps.length < f := Nat.lt_of_succ_lt_succ hf
      cases l with
      | nil => simp [fnmatchFuel, hp]
      | cons c ns => simp [fnmatchFuel, hp, ih hps ns f hlt]

theorem fnmatchFuel_star (ps : List Char) (hs : '*' ∉ ps) :
    ∀ (l : List Char) (fuel : Nat), ps.length + l.length + 1 < fuel →
      (fnmatchFuel fuel ('*' :: ps) l = true ↔ ps <:+ l) := by
  intro l
  induction l with
  | nil =>
    intro fuel hf
    cases fuel with
    | zero => exact absurd hf (Nat.not_lt_zero _)
    | succ f =>
      have h1 : ps.length < f := by
        have := List.length_nil (α := Char)
        omega
      rw [show fnmatchFuel (f + 1) ('*' :: ps) [] = (fnmatchFuel f ps [] || false) from rfl]
      rw [Bool.or_false, fnmatchFuel_nostar ps hs [] f h1, List.suffix_nil]
      exact eq_comm
  | cons c ns ih =>
    intro fuel hf
    cases fuel with
    | zero => exact absurd hf (Nat.not_lt_zero _)
    | succ f =>
      have hlen : (c :: ns).length = ns.length + 1 := List.length_cons c ns
      have h1 : ps.length < f := by omega
      have h2 : ps.length + ns.length + 1 < f := by omega
      rw [show fnmatchFuel (f + 1) ('*' :: ps) (c :: ns) =
        (fnmatchFuel f ps (c :: ns) || fnmatchFuel f ('*' :: ps) ns) from rfl]
      rw [Bool.or_eq_true, fnmatchFuel_nostar ps hs (c :: ns) f h1, ih f h2,
        List.suffix_cons_iff]
      exact or_congr eq_comm Iff.rfl

theorem globMatch_json_eq_suffix (name : String) :
    globMatch "*.json" name = decide (".json".toList <:+ name.toList) := by
  have h5 : (".json".toList).length = 5 := by decide
  have h6 : ("*.json" : String).length = 6 := by decide
  have hlen : (name.toList).length = name.length := rfl
  have hbound : (".json".toList).length + (name.toList).length + 1 <
      ("*.json" : String).length + name.length + 1 := by omega
  have h := fnmatchFuel_star ".json".toList (by decide) name.toList
    (("*.json" : String).length + name.length + 1) hbound
  have he : ("*.json".toList) = '*' :: ".json".toList := by decide
  unfold globMatch
  rw [he]
  by_cases hsfx : ".json".toList <:+ name.toList
  · rw [h.mpr hsfx, decide_eq_true hsfx]
  · have hne : fnmatchFuel (("*.json" : String).length + name.length + 1)
        ('*' :: ".json".toList) name.toList ≠ true := fun hc => hsfx (h.mp hc)
    rw [Bool.eq_false_iff.mpr hne, decide_eq_false hsfx]

/-- C10: discovery is exactly `glob("*.json")` on the input directory —
the files loaded and rendered are precisely the direct entries (no `/`
in their relative path, i.e. discovery is non-recursive) whose names
end in `.json`; everything else, including `.json` files inside
subdirectories, is ignored. -/
theorem C10_nonrecursive_json_discovery (dir : List JFile) :
    listjsonfiles dir =
      dir.filter (fun f => !f.name.toList.contains '/' &&
        decide (".json".toList <:+ f.name.toList)) ∧
    process_jsonfiles dir =
      renderAll (dir.filter (fun f => !f.name.toList.contains '/' &&
        decide (".json".toList <:+ f.name.toList))) := by
  have hfe : listjsonfiles dir =
      dir.filter (fun f => !f.name.toList.contains '/' &&
        decide (".json".toList <:+ f.name.toList)) := by
    unfold listjsonfiles
    exact List.filter_congr fun f _ => by simp only [globMatch_json_eq_suffix]
  exact ⟨hfe, by unfold process_jsonfiles; rw [hfe]⟩
